import Mathlib

/-!
Verification of the bounding-box overlay renderer
(src/data_viz/bounding-box.js) against its specification.

Modelling conventions:
* JavaScript numbers are modelled exactly: an extended rational type
  `JSNum` with NaN and signed infinities carries the IEEE special-value
  propagation rules, while finite arithmetic is exact rational
  arithmetic (rounding is not modelled).
* A missing array element (JS `undefined`) coerces to NaN in numeric
  context, so `bboxGet` returns `JSNum.nan` past the end of the list.
* Video geometry (`videoWidth`, `videoHeight` and the bounding client
  rect) consists of finite non-negative numbers in the DOM, so it is
  modelled directly as rationals.
* DOM node identity is modelled by a `nodeId : Nat` stamp on each
  primitive, drawn from a fresh counter in the module state; a d3
  keyed join updates surviving nodes in place (stamp preserved) and
  appends freshly stamped nodes for entering data.
* The module-scoped mutable state (`boundingBoxData`, `svg`,
  `currentFrame`) is an explicit `BBState` record threaded through the
  operations; a JS exception escaping a function is an `Except.error`.
-/

/-- A JavaScript number: a finite rational, NaN, or a signed infinity.
Non-numeric values that coerce to NaN in arithmetic (such as
`undefined`) are represented by `nan`. -/
inductive JSNum where
  | num (q : ℚ)
  | nan
  | inf
  | ninf
deriving DecidableEq, Repr

namespace JSNum

/-- JS `isFinite`. -/
def isFinite : JSNum → Bool
  | num _ => true
  | _ => false

/-- IEEE negation. -/
def neg : JSNum → JSNum
  | num q => num (-q)
  | nan => nan
  | inf => ninf
  | ninf => inf

/-- IEEE addition (exact on finite operands). -/
def add : JSNum → JSNum → JSNum
  | num a, num b => num (a + b)
  | nan, _ => nan
  | _, nan => nan
  | inf, ninf => nan
  | ninf, inf => nan
  | inf, _ => inf
  | _, inf => inf
  | ninf, _ => ninf
  | _, ninf => ninf

/-- IEEE subtraction, `a - b = a + (-b)`. -/
def sub (a b : JSNum) : JSNum := add a (neg b)

/-- IEEE multiplication (exact on finite operands). -/
def mul : JSNum → JSNum → JSNum
  | num a, num b => num (a * b)
  | nan, _ => nan
  | _, nan => nan
  | inf, num a => if a = 0 then nan else if 0 < a then inf else ninf
  | num a, inf => if a = 0 then nan else if 0 < a then inf else ninf
  | ninf, num a => if a = 0 then nan else if 0 < a then ninf else inf
  | num a, ninf => if a = 0 then nan else if 0 < a then ninf else inf
  | inf, inf => inf
  | ninf, ninf => inf
  | inf, ninf => ninf
  | ninf, inf => ninf

/-- IEEE division (exact on finite operands; the model has no negative
zero, so division by zero behaves as division by positive zero). -/
def div : JSNum → JSNum → JSNum
  | num a, num b =>
      if b = 0 then (if a = 0 then nan else if 0 < a then inf else ninf)
      else num (a / b)
  | nan, _ => nan
  | _, nan => nan
  | num _, inf => num 0
  | num _, ninf => num 0
  | inf, num b => if 0 ≤ b then inf else ninf
  | ninf, num b => if 0 ≤ b then ninf else inf
  | inf, inf => nan
  | inf, ninf => nan
  | ninf, inf => nan
  | ninf, ninf => nan

end JSNum

/-- The geometry read from the DOM when redrawing: the intrinsic video
dimensions (`videoElement.videoWidth` and `.videoHeight`) and the
rendered rectangle (`videoElement.getBoundingClientRect()`). -/
structure Geometry where
  videoWidth : ℚ
  videoHeight : ℚ
  rectWidth : ℚ
  rectHeight : ℚ
deriving DecidableEq, Repr

/-- One detection record from the loaded JSON array. -/
structure Record where
  frame : Int
  id : Int
  cls : String
  confidence : ℚ
  bbox : List JSNum
deriving DecidableEq, Repr

/-- Component access `d.bbox[i]`: a missing element is `undefined`, which coerces to NaN
in the arithmetic that consumes it. -/
def bboxGet (d : Record) (i : Nat) : JSNum := d.bbox.getD i JSNum.nan

/-- Source: `scale = Math.min(videoRect.width / videoWidth, videoRect.height /
videoHeight)`. -/
def scaleOf (g : Geometry) : ℚ :=
  min (g.rectWidth / g.videoWidth) (g.rectHeight / g.videoHeight)

/-- Source: `actualWidth = videoWidth * scale`. -/
def actualWidth (g : Geometry) : ℚ := g.videoWidth * scaleOf g

/-- Source: `actualHeight = videoHeight * scale`. -/
def actualHeight (g : Geometry) : ℚ := g.videoHeight * scaleOf g

/-- Source: `xOffset = (videoRect.width - actualWidth) / 2`. -/
def xOffset (g : Geometry) : ℚ := (g.rectWidth - actualWidth g) / 2

/-- Source: `yOffset = (videoRect.height - actualHeight) / 2`. -/
def yOffset (g : Geometry) : ℚ := (g.rectHeight - actualHeight g) / 2

/-- Source: `isFinite(v) ? v : 0`. -/
def finClamp : JSNum → ℚ
  | JSNum.num q => q
  | _ => 0

/-- Source: `isFinite(v) && v > 0 ? v : 0`. -/
def finPosClamp : JSNum → ℚ
  | JSNum.num q => if 0 < q then q else 0
  | _ => 0

/-- Raw x attribute: `xOffset + (d.bbox[0] / videoWidth) * actualWidth`. -/
def rawX (g : Geometry) (d : Record) : JSNum :=
  JSNum.add (JSNum.num (xOffset g))
    (JSNum.mul (JSNum.div (bboxGet d 0) (JSNum.num g.videoWidth))
      (JSNum.num (actualWidth g)))

/-- Raw y attribute: `yOffset + (d.bbox[1] / videoHeight) * actualHeight`. -/
def rawY (g : Geometry) (d : Record) : JSNum :=
  JSNum.add (JSNum.num (yOffset g))
    (JSNum.mul (JSNum.div (bboxGet d 1) (JSNum.num g.videoHeight))
      (JSNum.num (actualHeight g)))

/-- Raw width: `((d.bbox[2] - d.bbox[0]) / videoWidth) * actualWidth`. -/
def rawW (g : Geometry) (d : Record) : JSNum :=
  JSNum.mul (JSNum.div (JSNum.sub (bboxGet d 2) (bboxGet d 0))
      (JSNum.num g.videoWidth))
    (JSNum.num (actualWidth g))

/-- Raw height: `((d.bbox[3] - d.bbox[1]) / videoHeight) * actualHeight`. -/
def rawH (g : Geometry) (d : Record) : JSNum :=
  JSNum.mul (JSNum.div (JSNum.sub (bboxGet d 3) (bboxGet d 1))
      (JSNum.num g.videoHeight))
    (JSNum.num (actualHeight g))

/-- Drawn x attribute of a box (finite-clamped). -/
def drawnX (g : Geometry) (d : Record) : ℚ := finClamp (rawX g d)

/-- Drawn y attribute of a box (finite-clamped). -/
def drawnY (g : Geometry) (d : Record) : ℚ := finClamp (rawY g d)

/-- Drawn width of a box (finite- and positivity-clamped). -/
def drawnW (g : Geometry) (d : Record) : ℚ := finPosClamp (rawW g d)

/-- Drawn height of a box (finite- and positivity-clamped). -/
def drawnH (g : Geometry) (d : Record) : ℚ := finPosClamp (rawH g d)

/-- Label y attribute: the raw y expression minus 5, finite-clamped as a
whole. -/
def drawnLabelY (g : Geometry) (d : Record) : ℚ :=
  finClamp (JSNum.sub (rawY g d) (JSNum.num 5))

/-- Models `Math.round` on an exact rational: round half away from zero is what
JS does for halves toward positive infinity. -/
def jsRound (q : ℚ) : Int := ⌊q + 1/2⌋

/-- Box opacity: `Math.min(1, d.confidence + 0.3)`. -/
def jsOpacity (c : ℚ) : ℚ := min 1 (c + 3/10)

/-- A `rect` primitive in the box layer. `nodeId` models DOM node
identity (a node updated in place keeps its stamp); `key` is the bound
datum id used by the d3 keyed join. -/
structure RectPrim where
  nodeId : Nat
  key : Int
  x : ℚ
  y : ℚ
  w : ℚ
  h : ℚ
  stroke : Option String
  opacity : ℚ
deriving DecidableEq, Repr

/-- A `text` label primitive in the box layer. -/
structure LabelPrim where
  nodeId : Nat
  key : Int
  x : ℚ
  y : ℚ
  text : String
  fill : Option String
deriving DecidableEq, Repr

/-- Set every attribute the merged enter/update selection sets on a box
(`x`, `y`, `width`, `height`, `stroke` from the class-color mapping,
`opacity`); node identity and bound key are untouched. -/
def setRectAttrs (colors : String → Option String) (g : Geometry)
    (d : Record) (r : RectPrim) : RectPrim :=
  { r with
    x := drawnX g d, y := drawnY g d, w := drawnW g d, h := drawnH g d,
    stroke := colors d.cls, opacity := jsOpacity d.confidence }

/-- A freshly appended `rect` for an entering datum, with all attributes
set by the merged selection. -/
def mkRect (colors : String → Option String) (g : Geometry) (n : Nat)
    (d : Record) : RectPrim :=
  setRectAttrs colors g d
    { nodeId := n, key := d.id, x := 0, y := 0, w := 0, h := 0,
      stroke := none, opacity := 1 }

/-- Label text: `{class} {id} ({round(confidence*100)}%)`. -/
def labelText (d : Record) : String :=
  d.cls ++ " " ++ toString d.id ++ " (" ++ toString (jsRound (d.confidence * 100)) ++ "%)"

/-- Set every attribute the merged label selection sets (`x`, `y` offset
5 above the box, text content, `fill`). -/
def setLabelAttrs (colors : String → Option String) (g : Geometry)
    (d : Record) (l : LabelPrim) : LabelPrim :=
  { l with
    x := drawnX g d, y := drawnLabelY g d,
    text := labelText d, fill := colors d.cls }

/-- A freshly appended `text` node for an entering datum. -/
def mkLabel (colors : String → Option String) (g : Geometry) (n : Nat)
    (d : Record) : LabelPrim :=
  setLabelAttrs colors g d
    { nodeId := n, key := d.id, x := 0, y := 0, text := "", fill := none }

/-- The ids of a data list, in order (the keys of the d3 join). -/
def keysOf (data : List Record) : List Int := data.map (·.id)

/-- The update half of the d3 keyed join on rects: existing nodes whose
key matches a datum survive and are updated in place (same DOM node,
same stamp); nodes with no matching datum are the exit selection and
are removed. -/
def updateRects (colors : String → Option String) (g : Geometry)
    (data : List Record) (olds : List RectPrim) : List RectPrim :=
  (olds.filter (fun r => decide (r.key ∈ keysOf data))).map (fun r =>
    match data.find? (fun d => d.id == r.key) with
    | some d => setRectAttrs colors g d r
    | none => r)

/-- The enter half of the join on rects: data whose key matches no
existing node get fresh nodes appended after the surviving ones, in
data order, stamped with consecutive fresh node ids. -/
def enterRects (colors : String → Option String) (g : Geometry) :
    Nat → List Record → List RectPrim
  | _, [] => []
  | n, d :: ds => mkRect colors g n d :: enterRects colors g (n + 1) ds

/-- The update half of the join on labels. -/
def updateLabels (colors : String → Option String) (g : Geometry)
    (data : List Record) (olds : List LabelPrim) : List LabelPrim :=
  (olds.filter (fun l => decide (l.key ∈ keysOf data))).map (fun l =>
    match data.find? (fun d => d.id == l.key) with
    | some d => setLabelAttrs colors g d l
    | none => l)

/-- The enter half of the join on labels. -/
def enterLabels (colors : String → Option String) (g : Geometry) :
    Nat → List Record → List LabelPrim
  | _, [] => []
  | n, d :: ds => mkLabel colors g n d :: enterLabels colors g (n + 1) ds

/-- The keys bound to a list of rect nodes. -/
def rectKeys (rs : List RectPrim) : List Int := rs.map (·.key)

/-- The keys bound to a list of label nodes. -/
def labelKeys (ls : List LabelPrim) : List Int := ls.map (·.key)

/-- The overlay surface: the box-layer primitives, plus whether the SVG
element has been detached from the document (its DOM node removed while
the module-scoped `svg` selection still references it). -/
structure Surface where
  rects : List RectPrim
  labels : List LabelPrim
  detached : Bool
deriving DecidableEq, Repr

/-- The module-scoped state: `boundingBoxData`, `svg`, `currentFrame`,
plus the fresh-node counter modelling DOM node identity. -/
structure BBState where
  boundingBoxData : List Record
  svg : Option Surface
  currentFrame : Int
  nextNode : Nat
deriving DecidableEq, Repr

/-- The frame data: records whose `frame` strictly equals the requested
frame number. -/
def frameFilter (data : List Record) (f : Int) : List Record :=
  data.filter (fun d => d.frame == f)

/-- The surface produced by one keyed redraw over frame data `D`:
surviving rects and labels are updated in place, entering data get
fresh nodes appended (rects first, then labels, consuming consecutive
fresh node stamps from `n`). -/
def redrawSurface (colors : String → Option String) (g : Geometry)
    (D : List Record) (n : Nat) (surf : Surface) : Surface :=
  { rects := updateRects colors g D surf.rects ++
      enterRects colors g n
        (D.filter (fun d => decide (d.id ∉ rectKeys surf.rects))),
    labels := updateLabels colors g D surf.labels ++
      enterLabels colors g
        (n + (D.filter (fun d => decide (d.id ∉ rectKeys surf.rects))).length)
        (D.filter (fun d => decide (d.id ∉ labelKeys surf.labels))),
    detached := surf.detached }

/-- The successful redraw path of `updateBoundingBoxes`: filter the data
to the frame, run the keyed join on rects and labels, store the new
surface. -/
def applyRedraw (colors : String → Option String) (g : Geometry)
    (frameNumber : Int) (surf : Surface) (s : BBState) : BBState :=
  { s with
    currentFrame := frameNumber,
    svg := some (redrawSurface colors g
      (frameFilter s.boundingBoxData frameNumber) s.nextNode surf),
    nextNode := s.nextNode +
      ((frameFilter s.boundingBoxData frameNumber).filter
        (fun d => decide (d.id ∉ rectKeys surf.rects))).length +
      ((frameFilter s.boundingBoxData frameNumber).filter
        (fun d => decide (d.id ∉ labelKeys surf.labels))).length }

/-- Models `updateBoundingBoxes(frameNumber)`.
Guard order follows the source: return if `svg` is null or the data is
empty; then `currentFrame = frameNumber`; then
`svg.node().parentNode.querySelector(...)` — if the SVG node was
detached from the document its `parentNode` is null and this line
throws a TypeError (modelled as `Except.error`); return if the video
element is missing (`geom = none`); return if any dimension is zero
(DOM geometry values are finite non-negative numbers, so JS falsiness
on them is exactly the zero test); otherwise run the keyed redraw. -/
def updateBoundingBoxes (colors : String → Option String)
    (geom : Option Geometry) (frameNumber : Int) (s : BBState) :
    Except String BBState :=
  match s.svg with
  | none => Except.ok s
  | some surf =>
    if s.boundingBoxData.isEmpty then Except.ok s
    else
      let s1 : BBState := { s with currentFrame := frameNumber }
      if surf.detached then Except.error "TypeError"
      else
        match geom with
        | none => Except.ok s1
        | some g =>
          if g.videoWidth = 0 ∨ g.videoHeight = 0 ∨
              g.rectWidth = 0 ∨ g.rectHeight = 0 then Except.ok s1
          else Except.ok (applyRedraw colors g frameNumber surf s1)

/-- Models `loadBoundingBoxData(dataFile)`: the outcome of the awaited fetch
and JSON parse is a parameter; on success the parsed array replaces
`boundingBoxData` wholesale and `currentFrame` resets to 0; on any
failure the catch block logs and sets `boundingBoxData` to the empty
array. The function is total: no exception escapes. -/
def loadBoundingBoxData (result : Except String (List Record))
    (s : BBState) : BBState :=
  match result with
  | Except.ok data => { s with boundingBoxData := data, currentFrame := 0 }
  | Except.error _ => { s with boundingBoxData := [] }

/-- The part of the initialization environment the model needs: whether
`videoContainer.querySelector(".content-video")` finds a video element
(measurement of an existing element does not throw). -/
structure InitEnv where
  hasVideo : Bool
deriving DecidableEq, Repr

/-- Models `initializeBoundingBoxes(videoContainer)`. The existing overlay DOM
node is removed first, so a previously stored `svg` selection becomes
detached; on success a fresh attached empty surface replaces it; on
failure (no video element, so `getBoundingClientRect` throws on null)
the catch block logs and the module `svg` variable keeps its previous,
now detached, value. -/
def initializeBoundingBoxes (env : InitEnv) (s : BBState) : BBState :=
  let s0 : BBState :=
    { s with svg := s.svg.map (fun surf => { surf with detached := true }) }
  if env.hasVideo then
    { s0 with svg := some { rects := [], labels := [], detached := false } }
  else
    s0

/-- Models `handleResize()`: if `svg` is set, redraw the stored
`currentFrame`. -/
def handleResize (colors : String → Option String)
    (geom : Option Geometry) (s : BBState) : Except String BBState :=
  match s.svg with
  | none => Except.ok s
  | some _ => updateBoundingBoxes colors geom s.currentFrame s

/-! ### Concrete fixtures used by witnesses and counterexamples -/

/-- A small class-color mapping. -/
def exColors : String → Option String :=
  fun c => if c = "car" then some "red" else none

/-- The scenario geometry from the specification: native 1920x1080,
display rect 800x600. -/
def exGeom : Geometry := ⟨1920, 1080, 800, 600⟩

/-- The scenario record from the specification. -/
def exRecord : Record :=
  ⟨3, 1, "car", 9/10,
    [JSNum.num 100, JSNum.num 100, JSNum.num 300, JSNum.num 200]⟩

/-- A record whose bbox is reversed (`x_max < x_min`). -/
def exBadRecord : Record :=
  ⟨3, 1, "car", 9/10,
    [JSNum.num 10, JSNum.num 10, JSNum.num 5, JSNum.num 20]⟩

/-- A record with an entirely missing bbox list: every component reads
as undefined, hence NaN in arithmetic. -/
def exNanRecord : Record := ⟨3, 2, "person", 1/2, []⟩

/-- An empty attached surface, as produced by a successful
initialization. -/
def exSurface : Surface := ⟨[], [], false⟩

/-- A state with one loaded record and a live surface. -/
def exState : BBState := ⟨[exRecord], some exSurface, 7, 0⟩

/-- A state whose only record has a missing bbox. -/
def exStateNan : BBState := ⟨[exNanRecord], some exSurface, 7, 0⟩

/-- Geometry of a video that has not loaded yet: zero native width. -/
def exZeroGeom : Geometry := ⟨0, 1080, 800, 600⟩

/-! ### Helper lemmas about the keyed join -/

theorem setRectAttrs_key (colors : String → Option String) (g : Geometry)
    (d : Record) (r : RectPrim) : (setRectAttrs colors g d r).key = r.key :=
  rfl

theorem setRectAttrs_nodeId (colors : String → Option String)
    (g : Geometry) (d : Record) (r : RectPrim) :
    (setRectAttrs colors g d r).nodeId = r.nodeId := rfl

theorem setRectAttrs_idem (colors : String → Option String) (g : Geometry)
    (d : Record) (r : RectPrim) :
    setRectAttrs colors g d (setRectAttrs colors g d r)
      = setRectAttrs colors g d r := rfl

theorem setLabelAttrs_idem (colors : String → Option String)
    (g : Geometry) (d : Record) (l : LabelPrim) :
    setLabelAttrs colors g d (setLabelAttrs colors g d l)
      = setLabelAttrs colors g d l := rfl

theorem mem_keysOf {data : List Record} {k : Int} :
    k ∈ keysOf data ↔ ∃ d ∈ data, d.id = k := by
  simp [keysOf]

/-- Lookup `find?` by id cannot miss a key that is present. -/
theorem find?_of_mem_keysOf {data : List Record} {k : Int}
    (h : k ∈ keysOf data) :
    ∃ d, data.find? (fun x => x.id == k) = some d ∧ d ∈ data ∧ d.id = k := by
  obtain ⟨d0, hd0, hk0⟩ := mem_keysOf.mp h
  have hsome : (data.find? (fun x => x.id == k)).isSome := by
    rw [List.find?_isSome]
    exact ⟨d0, hd0, by simp [hk0]⟩
  obtain ⟨d, hd⟩ := Option.isSome_iff_exists.mp hsome
  refine ⟨d, hd, List.mem_of_find?_eq_some hd, ?_⟩
  have := List.find?_some hd
  simpa using this

/-- With pairwise distinct ids, `find?` by the id of a member returns
that member. -/
theorem find?_eq_self_of_nodup {data : List Record}
    (hnd : (keysOf data).Nodup) {d : Record} (hd : d ∈ data) :
    data.find? (fun x => x.id == d.id) = some d := by
  induction data with
  | nil => cases hd
  | cons e tl ih =>
    rcases List.mem_cons.mp hd with rfl | hmem
    · simp [List.find?]
    · have hne : e.id ≠ d.id := by
        intro hEq
        have : e.id ∈ keysOf tl := mem_keysOf.mpr ⟨d, hmem, hEq.symm⟩
        exact (List.nodup_cons.mp hnd).1 this
      have htl : (keysOf tl).Nodup := (List.nodup_cons.mp hnd).2
      have hbeq : (e.id == d.id) = false := by simpa using hne
      simp only [List.find?, hbeq]
      exact ih htl hmem

theorem map_id_of_mem {α : Type} {l : List α} {f : α → α}
    (h : ∀ a ∈ l, f a = a) : l.map f = l := by
  induction l with
  | nil => rfl
  | cons a tl ih =>
    simp only [List.map_cons, h a (List.mem_cons_self a tl)]
    rw [ih (fun b hb => h b (List.mem_cons_of_mem a hb))]

theorem filter_self_of_mem {α : Type} {l : List α} {p : α → Bool}
    (h : ∀ a ∈ l, p a = true) : l.filter p = l :=
  List.filter_eq_self.mpr h

theorem filter_nil_of_mem {α : Type} {l : List α} {p : α → Bool}
    (h : ∀ a ∈ l, p a = false) : l.filter p = [] := by
  induction l with
  | nil => rfl
  | cons a tl ih =>
    rw [List.filter_cons, if_neg (by simp [h a (List.mem_cons_self a tl)])]
    exact ih fun b hb => h b (List.mem_cons_of_mem a hb)

/-- Every member of the update selection comes from a surviving old
node, bound to the first datum carrying its key. -/
theorem updateRects_mem {colors : String → Option String} {g : Geometry}
    {data : List Record} {olds : List RectPrim} {r2 : RectPrim}
    (h : r2 ∈ updateRects colors g data olds) :
    ∃ r0 ∈ olds, r0.key ∈ keysOf data ∧
      ∃ d, data.find? (fun x => x.id == r0.key) = some d ∧ d ∈ data ∧
        d.id = r0.key ∧ r2 = setRectAttrs colors g d r0 := by
  unfold updateRects at h
  obtain ⟨r0, hr0, himg⟩ := List.mem_map.mp h
  have hmemf := List.mem_filter.mp hr0
  have hkey : r0.key ∈ keysOf data := by simpa using hmemf.2
  obtain ⟨d, hfind, hdmem, hdid⟩ := find?_of_mem_keysOf hkey
  refine ⟨r0, hmemf.1, hkey, d, hfind, hdmem, hdid, ?_⟩
  rw [hfind] at himg
  exact himg.symm

/-- A surviving old node stays in the update selection, updated in
place: same node stamp, same key. -/
theorem updateRects_reuse {colors : String → Option String} {g : Geometry}
    {data : List Record} {olds : List RectPrim} {r0 : RectPrim}
    (h0 : r0 ∈ olds) (hk : r0.key ∈ keysOf data) :
    ∃ r2 ∈ updateRects colors g data olds,
      r2.nodeId = r0.nodeId ∧ r2.key = r0.key := by
  unfold updateRects
  have hf : r0 ∈ olds.filter (fun r => decide (r.key ∈ keysOf data)) :=
    List.mem_filter.mpr ⟨h0, by simpa using hk⟩
  refine ⟨_, List.mem_map_of_mem _ hf, ?_⟩
  obtain ⟨d, hfind, _, _⟩ := find?_of_mem_keysOf hk
  rw [hfind]
  exact ⟨rfl, rfl⟩

/-- Every member of the enter selection is a fresh node for one of the
entering data. -/
theorem enterRects_mem {colors : String → Option String} {g : Geometry}
    {r2 : RectPrim} :
    ∀ {n : Nat} {ds : List Record}, r2 ∈ enterRects colors g n ds →
      ∃ m d, d ∈ ds ∧ r2 = mkRect colors g m d := by
  intro n ds
  induction ds generalizing n with
  | nil => intro h; cases h
  | cons d tl ih =>
    intro h
    rcases List.mem_cons.mp h with rfl | hmem
    · exact ⟨n, d, List.mem_cons_self d tl, rfl⟩
    · obtain ⟨m, d2, hd2, heq⟩ := ih hmem
      exact ⟨m, d2, List.mem_cons_of_mem d hd2, heq⟩

/-- Every entering datum gets a fresh node. -/
theorem enterRects_complete {colors : String → Option String}
    {g : Geometry} {d : Record} :
    ∀ {n : Nat} {ds : List Record}, d ∈ ds →
      ∃ r2 ∈ enterRects colors g n ds, r2.key = d.id := by
  intro n ds
  induction ds generalizing n with
  | nil => intro h; cases h
  | cons e tl ih =>
    intro h
    rcases List.mem_cons.mp h with rfl | hmem
    · exact ⟨mkRect colors g n d, List.mem_cons_self _ _, rfl⟩
    · obtain ⟨r2, hr2, hk⟩ := @ih (n + 1) hmem
      exact ⟨r2, List.mem_cons_of_mem _ hr2, hk⟩

theorem updateLabels_mem {colors : String → Option String} {g : Geometry}
    {data : List Record} {olds : List LabelPrim} {l2 : LabelPrim}
    (h : l2 ∈ updateLabels colors g data olds) :
    ∃ l0 ∈ olds, l0.key ∈ keysOf data ∧
      ∃ d, data.find? (fun x => x.id == l0.key) = some d ∧ d ∈ data ∧
        d.id = l0.key ∧ l2 = setLabelAttrs colors g d l0 := by
  unfold updateLabels at h
  obtain ⟨l0, hl0, himg⟩ := List.mem_map.mp h
  have hmemf := List.mem_filter.mp hl0
  have hkey : l0.key ∈ keysOf data := by simpa using hmemf.2
  obtain ⟨d, hfind, hdmem, hdid⟩ := find?_of_mem_keysOf hkey
  refine ⟨l0, hmemf.1, hkey, d, hfind, hdmem, hdid, ?_⟩
  rw [hfind] at himg
  exact himg.symm

theorem updateLabels_reuse {colors : String → Option String}
    {g : Geometry} {data : List Record} {olds : List LabelPrim}
    {l0 : LabelPrim} (h0 : l0 ∈ olds) (hk : l0.key ∈ keysOf data) :
    ∃ l2 ∈ updateLabels colors g data olds,
      l2.nodeId = l0.nodeId ∧ l2.key = l0.key := by
  unfold updateLabels
  have hf : l0 ∈ olds.filter (fun l => decide (l.key ∈ keysOf data)) :=
    List.mem_filter.mpr ⟨h0, by simpa using hk⟩
  refine ⟨_, List.mem_map_of_mem _ hf, ?_⟩
  obtain ⟨d, hfind, _, _⟩ := find?_of_mem_keysOf hk
  rw [hfind]
  exact ⟨rfl, rfl⟩

theorem enterLabels_mem {colors : String → Option String} {g : Geometry}
    {l2 : LabelPrim} :
    ∀ {n : Nat} {ds : List Record}, l2 ∈ enterLabels colors g n ds →
      ∃ m d, d ∈ ds ∧ l2 = mkLabel colors g m d := by
  intro n ds
  induction ds generalizing n with
  | nil => intro h; cases h
  | cons d tl ih =>
    intro h
    rcases List.mem_cons.mp h with rfl | hmem
    · exact ⟨n, d, List.mem_cons_self d tl, rfl⟩
    · obtain ⟨m, d2, hd2, heq⟩ := ih hmem
      exact ⟨m, d2, List.mem_cons_of_mem d hd2, heq⟩

theorem enterLabels_complete {colors : String → Option String}
    {g : Geometry} {d : Record} :
    ∀ {n : Nat} {ds : List Record}, d ∈ ds →
      ∃ l2 ∈ enterLabels colors g n ds, l2.key = d.id := by
  intro n ds
  induction ds generalizing n with
  | nil => intro h; cases h
  | cons e tl ih =>
    intro h
    rcases List.mem_cons.mp h with rfl | hmem
    · exact ⟨mkLabel colors g n d, List.mem_cons_self _ _, rfl⟩
    · obtain ⟨l2, hl2, hk⟩ := @ih (n + 1) hmem
      exact ⟨l2, List.mem_cons_of_mem _ hl2, hk⟩

/-- The rects drawn by the join: one per datum of the frame. -/
theorem joinRects_complete (colors : String → Option String)
    (g : Geometry) (D : List Record) (n : Nat) (olds : List RectPrim)
    {d : Record} (hd : d ∈ D) :
    ∃ r ∈ updateRects colors g D olds ++
        enterRects colors g n (D.filter (fun x => decide (x.id ∉ rectKeys olds))),
      r.key = d.id := by
  by_cases hk : d.id ∈ rectKeys olds
  · obtain ⟨r0, hr0, hk0⟩ := List.mem_map.mp hk
    have hkey : r0.key ∈ keysOf D := mem_keysOf.mpr ⟨d, hd, hk0.symm⟩
    obtain ⟨r2, hr2, _, hkeq⟩ :=
      @updateRects_reuse colors g _ _ _ hr0 hkey
    exact ⟨r2, List.mem_append_left _ hr2, by rw [hkeq, hk0]⟩
  · have hent : d ∈ D.filter (fun x => decide (x.id ∉ rectKeys olds)) :=
      List.mem_filter.mpr ⟨hd, by simpa using hk⟩
    obtain ⟨r2, hr2, hkeq⟩ :=
      @enterRects_complete colors g _ n _ hent
    exact ⟨r2, List.mem_append_right _ hr2, hkeq⟩

/-- The rects drawn by the join carry only keys of the frame data. -/
theorem joinRects_sound (colors : String → Option String) (g : Geometry)
    (D : List Record) (n : Nat) (olds : List RectPrim) {r : RectPrim}
    (h : r ∈ updateRects colors g D olds ++
      enterRects colors g n (D.filter (fun x => decide (x.id ∉ rectKeys olds)))) :
    r.key ∈ keysOf D := by
  rcases List.mem_append.mp h with h | h
  · obtain ⟨r0, _, hkey, d, _, _, _, rfl⟩ := updateRects_mem h
    simpa [setRectAttrs_key] using hkey
  · obtain ⟨m, d, hdmem, rfl⟩ := enterRects_mem h
    have hd : d ∈ D := (List.mem_filter.mp hdmem).1
    exact mem_keysOf.mpr ⟨d, hd, rfl⟩

theorem joinLabels_complete (colors : String → Option String)
    (g : Geometry) (D : List Record) (n : Nat) (olds : List LabelPrim)
    {d : Record} (hd : d ∈ D) :
    ∃ l ∈ updateLabels colors g D olds ++
        enterLabels colors g n (D.filter (fun x => decide (x.id ∉ labelKeys olds))),
      l.key = d.id := by
  by_cases hk : d.id ∈ labelKeys olds
  · obtain ⟨l0, hl0, hk0⟩ := List.mem_map.mp hk
    have hkey : l0.key ∈ keysOf D := mem_keysOf.mpr ⟨d, hd, hk0.symm⟩
    obtain ⟨l2, hl2, _, hkeq⟩ :=
      @updateLabels_reuse colors g _ _ _ hl0 hkey
    exact ⟨l2, List.mem_append_left _ hl2, by rw [hkeq, hk0]⟩
  · have hent : d ∈ D.filter (fun x => decide (x.id ∉ labelKeys olds)) :=
      List.mem_filter.mpr ⟨hd, by simpa using hk⟩
    obtain ⟨l2, hl2, hkeq⟩ :=
      @enterLabels_complete colors g _ n _ hent
    exact ⟨l2, List.mem_append_right _ hl2, hkeq⟩

theorem joinLabels_sound (colors : String → Option String) (g : Geometry)
    (D : List Record) (n : Nat) (olds : List LabelPrim) {l : LabelPrim}
    (h : l ∈ updateLabels colors g D olds ++
      enterLabels colors g n (D.filter (fun x => decide (x.id ∉ labelKeys olds)))) :
    l.key ∈ keysOf D := by
  rcases List.mem_append.mp h with h | h
  · obtain ⟨l0, _, hkey, d, _, _, _, rfl⟩ := updateLabels_mem h
    simpa using hkey
  · obtain ⟨m, d, hdmem, rfl⟩ := enterLabels_mem h
    have hd : d ∈ D := (List.mem_filter.mp hdmem).1
    exact mem_keysOf.mpr ⟨d, hd, rfl⟩

/-- After a redraw every frame datum has a rect node carrying its id. -/
theorem rectKeys_cover (colors : String → Option String) (g : Geometry)
    (D : List Record) (n : Nat) (surf : Surface) {d : Record}
    (hd : d ∈ D) :
    d.id ∈ rectKeys (redrawSurface colors g D n surf).rects := by
  obtain ⟨r, hr, hk⟩ := joinRects_complete colors g D n surf.rects hd
  exact List.mem_map.mpr ⟨r, hr, hk⟩

theorem labelKeys_cover (colors : String → Option String) (g : Geometry)
    (D : List Record) (n : Nat) (surf : Surface) {d : Record}
    (hd : d ∈ D) :
    d.id ∈ labelKeys (redrawSurface colors g D n surf).labels := by
  obtain ⟨l, hl, hk⟩ :=
    joinLabels_complete colors g D
      (n + (D.filter (fun x => decide (x.id ∉ rectKeys surf.rects))).length)
      surf.labels hd
  exact List.mem_map.mpr ⟨l, hl, hk⟩

/-- On a second redraw over the same data nothing enters the rect
layer. -/
theorem secondEnterR_nil (colors : String → Option String) (g : Geometry)
    (D : List Record) (n : Nat) (surf : Surface) :
    D.filter (fun d =>
        decide (d.id ∉ rectKeys (redrawSurface colors g D n surf).rects))
      = [] := by
  apply filter_nil_of_mem
  intro d hd
  simp [rectKeys_cover colors g D n surf hd]

theorem secondEnterL_nil (colors : String → Option String) (g : Geometry)
    (D : List Record) (n : Nat) (surf : Surface) :
    D.filter (fun d =>
        decide (d.id ∉ labelKeys (redrawSurface colors g D n surf).labels))
      = [] := by
  apply filter_nil_of_mem
  intro d hd
  simp [labelKeys_cover colors g D n surf hd]

/-- With distinct ids, updating the freshly drawn rects again changes
nothing: every node is bound to the datum `find?` returns for its key,
and setting the same attributes twice is setting them once. -/
theorem updateRects_fix (colors : String → Option String) (g : Geometry)
    (D : List Record) (hnd : (keysOf D).Nodup) (n : Nat) (surf : Surface) :
    updateRects colors g D (redrawSurface colors g D n surf).rects
      = (redrawSurface colors g D n surf).rects := by
  have hmemP : ∀ r ∈ (redrawSurface colors g D n surf).rects,
      ∃ d, D.find? (fun x => x.id == r.key) = some d ∧
        setRectAttrs colors g d r = r := by
    intro r hr
    rcases List.mem_append.mp hr with h | h
    · obtain ⟨r0, _, _, d, hfind, _, _, rfl⟩ := updateRects_mem h
      exact ⟨d, hfind, setRectAttrs_idem colors g d r0⟩
    · obtain ⟨m, d, hdmem, rfl⟩ := enterRects_mem h
      have hdD : d ∈ D := (List.mem_filter.mp hdmem).1
      exact ⟨d, find?_eq_self_of_nodup hnd hdD, rfl⟩
  unfold updateRects
  have hkeys : ∀ r ∈ (redrawSurface colors g D n surf).rects,
      decide (r.key ∈ keysOf D) = true := by
    intro r hr
    obtain ⟨d, hfind, _⟩ := hmemP r hr
    have hdD := List.mem_of_find?_eq_some hfind
    have hdid : d.id = r.key := by simpa using List.find?_some hfind
    rw [decide_eq_true_eq]
    exact mem_keysOf.mpr ⟨d, hdD, hdid⟩
  rw [filter_self_of_mem hkeys]
  apply map_id_of_mem
  intro r hr
  obtain ⟨d, hfind, hset⟩ := hmemP r hr
  rw [hfind]
  exact hset

theorem updateLabels_fix (colors : String → Option String) (g : Geometry)
    (D : List Record) (hnd : (keysOf D).Nodup) (n : Nat) (surf : Surface) :
    updateLabels colors g D (redrawSurface colors g D n surf).labels
      = (redrawSurface colors g D n surf).labels := by
  have hmemP : ∀ l ∈ (redrawSurface colors g D n surf).labels,
      ∃ d, D.find? (fun x => x.id == l.key) = some d ∧
        setLabelAttrs colors g d l = l := by
    intro l hl
    rcases List.mem_append.mp hl with h | h
    · obtain ⟨l0, _, _, d, hfind, _, _, rfl⟩ := updateLabels_mem h
      exact ⟨d, hfind, setLabelAttrs_idem colors g d l0⟩
    · obtain ⟨m, d, hdmem, rfl⟩ := enterLabels_mem h
      have hdD : d ∈ D := (List.mem_filter.mp hdmem).1
      exact ⟨d, find?_eq_self_of_nodup hnd hdD, rfl⟩
  unfold updateLabels
  have hkeys : ∀ l ∈ (redrawSurface colors g D n surf).labels,
      decide (l.key ∈ keysOf D) = true := by
    intro l hl
    obtain ⟨d, hfind, _⟩ := hmemP l hl
    have hdD := List.mem_of_find?_eq_some hfind
    have hdid : d.id = l.key := by simpa using List.find?_some hfind
    rw [decide_eq_true_eq]
    exact mem_keysOf.mpr ⟨d, hdD, hdid⟩
  rw [filter_self_of_mem hkeys]
  apply map_id_of_mem
  intro l hl
  obtain ⟨d, hfind, hset⟩ := hmemP l hl
  rw [hfind]
  exact hset

/-- Redrawing the same frame over an already-redrawn state is the
identity (distinct ids assumed, as the data model requires). -/
theorem applyRedraw_idem (colors : String → Option String) (g : Geometry)
    (f : Int) (surf : Surface) (s : BBState)
    (hnd : (keysOf (frameFilter s.boundingBoxData f)).Nodup) :
    applyRedraw colors g f
        (redrawSurface colors g (frameFilter s.boundingBoxData f)
          s.nextNode surf)
        (applyRedraw colors g f surf s)
      = applyRedraw colors g f surf s := by
  obtain ⟨bbd, svg0, cf, nn⟩ := s
  have hfR := secondEnterR_nil colors g (frameFilter bbd f) nn surf
  have hfL := secondEnterL_nil colors g (frameFilter bbd f) nn surf
  have hUR := updateRects_fix colors g (frameFilter bbd f) hnd nn surf
  have hUL := updateLabels_fix colors g (frameFilter bbd f) hnd nn surf
  show applyRedraw colors g f
      (redrawSurface colors g (frameFilter bbd f) nn surf)
      ⟨bbd, some (redrawSurface colors g (frameFilter bbd f) nn surf), f,
        nn + ((frameFilter bbd f).filter
          (fun d => decide (d.id ∉ rectKeys surf.rects))).length +
        ((frameFilter bbd f).filter
          (fun d => decide (d.id ∉ labelKeys surf.labels))).length⟩
    = _
  unfold applyRedraw
  simp only [hfR, hfL, List.length_nil, Nat.add_zero]
  conv_lhs =>
    rw [redrawSurface]
  simp only [hfR, hfL, hUR, hUL, enterRects, enterLabels, List.append_nil]

/-! ### Finite evaluation of the per-record arithmetic -/

theorem finPosClamp_num_of_nonneg {q : ℚ} (h : 0 ≤ q) :
    finPosClamp (JSNum.num q) = q := by
  rcases h.lt_or_eq with h1 | h1
  · simp [finPosClamp, h1]
  · rw [← h1]
    simp [finPosClamp]

theorem rawX_num (g : Geometry) (d : Record) (hvw : g.videoWidth ≠ 0)
    {b0 : ℚ} (hb : bboxGet d 0 = JSNum.num b0) :
    rawX g d = JSNum.num (xOffset g + b0 / g.videoWidth * actualWidth g) := by
  simp [rawX, hb, JSNum.div, JSNum.mul, JSNum.add, hvw]

theorem rawY_num (g : Geometry) (d : Record) (hvh : g.videoHeight ≠ 0)
    {b1 : ℚ} (hb : bboxGet d 1 = JSNum.num b1) :
    rawY g d = JSNum.num (yOffset g + b1 / g.videoHeight * actualHeight g) := by
  simp [rawY, hb, JSNum.div, JSNum.mul, JSNum.add, hvh]

theorem rawW_num (g : Geometry) (d : Record) (hvw : g.videoWidth ≠ 0)
    {b0 b2 : ℚ} (hb0 : bboxGet d 0 = JSNum.num b0)
    (hb2 : bboxGet d 2 = JSNum.num b2) :
    rawW g d = JSNum.num ((b2 - b0) / g.videoWidth * actualWidth g) := by
  simp [rawW, hb0, hb2, JSNum.sub, JSNum.neg, JSNum.div, JSNum.mul,
    JSNum.add, hvw, sub_eq_add_neg]

theorem rawH_num (g : Geometry) (d : Record) (hvh : g.videoHeight ≠ 0)
    {b1 b3 : ℚ} (hb1 : bboxGet d 1 = JSNum.num b1)
    (hb3 : bboxGet d 3 = JSNum.num b3) :
    rawH g d = JSNum.num ((b3 - b1) / g.videoHeight * actualHeight g) := by
  simp [rawH, hb1, hb3, JSNum.sub, JSNum.neg, JSNum.div, JSNum.mul,
    JSNum.add, hvh, sub_eq_add_neg]

theorem scaleOf_nonneg (g : Geometry) (hvw : 0 < g.videoWidth)
    (hvh : 0 < g.videoHeight) (hrw : 0 < g.rectWidth)
    (hrh : 0 < g.rectHeight) : 0 ≤ scaleOf g :=
  le_min (div_nonneg hrw.le hvw.le) (div_nonneg hrh.le hvh.le)

/-- C1: amended transform correctness. For positive native dimensions,
a positive display rectangle, and a well-formed bbox (four numeric
components with `x_min ≤ x_max` and `y_min ≤ y_max`), the drawn box
attributes equal the letterbox transform formulas of the claim. The
amendment adds the bbox well-formedness hypotheses: the source clamps
a negative width or height to 0, so a reversed bbox violates the
formulas as literally stated (see the counterexample). -/
theorem transform_formulas (g : Geometry) (d : Record)
    (hvw : 0 < g.videoWidth) (hvh : 0 < g.videoHeight)
    (hrw : 0 < g.rectWidth) (hrh : 0 < g.rectHeight) {b0 b1 b2 b3 : ℚ}
    (hb : d.bbox = [JSNum.num b0, JSNum.num b1, JSNum.num b2, JSNum.num b3])
    (h02 : b0 ≤ b2) (h13 : b1 ≤ b3) :
    scaleOf g = min (g.rectWidth / g.videoWidth) (g.rectHeight / g.videoHeight) ∧
      actualWidth g = g.videoWidth * scaleOf g ∧
      actualHeight g = g.videoHeight * scaleOf g ∧
      xOffset g = (g.rectWidth - actualWidth g) / 2 ∧
      yOffset g = (g.rectHeight - actualHeight g) / 2 ∧
      drawnX g d = xOffset g + b0 / g.videoWidth * actualWidth g ∧
      drawnY g d = yOffset g + b1 / g.videoHeight * actualHeight g ∧
      drawnW g d = (b2 - b0) / g.videoWidth * actualWidth g ∧
      drawnH g d = (b3 - b1) / g.videoHeight * actualHeight g := by
  have hb0 : bboxGet d 0 = JSNum.num b0 := by simp [bboxGet, hb]
  have hb1 : bboxGet d 1 = JSNum.num b1 := by simp [bboxGet, hb]
  have hb2 : bboxGet d 2 = JSNum.num b2 := by simp [bboxGet, hb]
  have hb3 : bboxGet d 3 = JSNum.num b3 := by simp [bboxGet, hb]
  have haw : 0 ≤ actualWidth g :=
    mul_nonneg hvw.le (scaleOf_nonneg g hvw hvh hrw hrh)
  have hah : 0 ≤ actualHeight g :=
    mul_nonneg hvh.le (scaleOf_nonneg g hvw hvh hrw hrh)
  refine ⟨rfl, rfl, rfl, rfl, rfl, ?_, ?_, ?_, ?_⟩
  · rw [drawnX, rawX_num g d hvw.ne' hb0]
    rfl
  · rw [drawnY, rawY_num g d hvh.ne' hb1]
    rfl
  · rw [drawnW, rawW_num g d hvw.ne' hb0 hb2]
    exact finPosClamp_num_of_nonneg
      (mul_nonneg (div_nonneg (sub_nonneg.mpr h02) hvw.le) haw)
  · rw [drawnH, rawH_num g d hvh.ne' hb1 hb3]
    exact finPosClamp_num_of_nonneg
      (mul_nonneg (div_nonneg (sub_nonneg.mpr h13) hvh.le) hah)

/-- Counterexample to C1 as literally stated: a record with numeric but
reversed bbox (`x_max < x_min`) at the 1920x1080 native, 800x600
display geometry. The claim formula gives a negative width, but the
code clamps the drawn width to 0. -/
theorem transform_formulas_cex :
    drawnW exGeom exBadRecord = 0 ∧
      (5 - 10) / exGeom.videoWidth * actualWidth exGeom ≠ (0 : ℚ) := by
  have haw : actualWidth exGeom = 800 := by
    norm_num [actualWidth, scaleOf, exGeom, min_def]
  have hb0 : bboxGet exBadRecord 0 = JSNum.num 10 := rfl
  have hb2 : bboxGet exBadRecord 2 = JSNum.num 5 := rfl
  have hw : rawW exGeom exBadRecord
      = JSNum.num ((5 - 10) / exGeom.videoWidth * actualWidth exGeom) :=
    rawW_num exGeom exBadRecord (by norm_num [exGeom]) hb0 hb2
  constructor
  · rw [drawnW, hw, haw]
    norm_num [finPosClamp, exGeom]
  · rw [haw]
    norm_num [exGeom]

/-- Witness for `transform_formulas` at the scenario record
`{frame:3, bbox:[100,100,300,200]}` and geometry of the spec. -/
theorem transform_formulas_witness :
    scaleOf exGeom = min (exGeom.rectWidth / exGeom.videoWidth)
        (exGeom.rectHeight / exGeom.videoHeight) ∧
      actualWidth exGeom = exGeom.videoWidth * scaleOf exGeom ∧
      actualHeight exGeom = exGeom.videoHeight * scaleOf exGeom ∧
      xOffset exGeom = (exGeom.rectWidth - actualWidth exGeom) / 2 ∧
      yOffset exGeom = (exGeom.rectHeight - actualHeight exGeom) / 2 ∧
      drawnX exGeom exRecord
        = xOffset exGeom + 100 / exGeom.videoWidth * actualWidth exGeom ∧
      drawnY exGeom exRecord
        = yOffset exGeom + 100 / exGeom.videoHeight * actualHeight exGeom ∧
      drawnW exGeom exRecord
        = (300 - 100) / exGeom.videoWidth * actualWidth exGeom ∧
      drawnH exGeom exRecord
        = (200 - 100) / exGeom.videoHeight * actualHeight exGeom :=
  transform_formulas exGeom exRecord (by decide) (by decide) (by decide)
    (by decide) (by decide) (by decide) (by decide)

/-- C3: for positive native dimensions and a positive display
rectangle, the scaled picture fits inside the display rectangle and
touches it in at least one dimension (aspect-fit). -/
theorem scale_aspect_fit (g : Geometry) (hvw : 0 < g.videoWidth)
    (hvh : 0 < g.videoHeight) (hrw : 0 < g.rectWidth)
    (hrh : 0 < g.rectHeight) :
    actualWidth g ≤ g.rectWidth ∧ actualHeight g ≤ g.rectHeight ∧
      (actualWidth g = g.rectWidth ∨ actualHeight g = g.rectHeight) := by
  have hw : g.videoWidth ≠ 0 := ne_of_gt hvw
  have hh : g.videoHeight ≠ 0 := ne_of_gt hvh
  have hEw : g.videoWidth * (g.rectWidth / g.videoWidth) = g.rectWidth := by
    rw [mul_comm]; exact div_mul_cancel₀ _ hw
  have hEh : g.videoHeight * (g.rectHeight / g.videoHeight) = g.rectHeight := by
    rw [mul_comm]; exact div_mul_cancel₀ _ hh
  rcases le_total (g.rectWidth / g.videoWidth) (g.rectHeight / g.videoHeight)
    with hle | hle
  · have hmin : scaleOf g = g.rectWidth / g.videoWidth := min_eq_left hle
    refine ⟨le_of_eq ?_, ?_, Or.inl ?_⟩
    · rw [actualWidth, hmin, hEw]
    · rw [actualHeight, hmin]
      calc g.videoHeight * (g.rectWidth / g.videoWidth)
          ≤ g.videoHeight * (g.rectHeight / g.videoHeight) :=
            mul_le_mul_of_nonneg_left hle (le_of_lt hvh)
        _ = g.rectHeight := hEh
    · rw [actualWidth, hmin, hEw]
  · have hmin : scaleOf g = g.rectHeight / g.videoHeight := min_eq_right hle
    refine ⟨?_, le_of_eq ?_, Or.inr ?_⟩
    · rw [actualWidth, hmin]
      calc g.videoWidth * (g.rectHeight / g.videoHeight)
          ≤ g.videoWidth * (g.rectWidth / g.videoWidth) :=
            mul_le_mul_of_nonneg_left hle (le_of_lt hvw)
        _ = g.rectWidth := hEw
    · rw [actualHeight, hmin, hEh]
    · rw [actualHeight, hmin, hEh]

/-- Witness for `scale_aspect_fit` at the 1920x1080 native, 800x600
display scenario from the specification. -/
theorem scale_aspect_fit_witness :
    actualWidth ⟨1920, 1080, 800, 600⟩ ≤ (800 : ℚ) ∧
      actualHeight ⟨1920, 1080, 800, 600⟩ ≤ (600 : ℚ) ∧
      (actualWidth ⟨1920, 1080, 800, 600⟩ = (800 : ℚ) ∨
        actualHeight ⟨1920, 1080, 800, 600⟩ = (600 : ℚ)) :=
  scale_aspect_fit ⟨1920, 1080, 800, 600⟩ (by norm_num) (by norm_num)
    (by norm_num) (by norm_num)

/-- C8: the drawn box opacity equals `min(1, confidence + 0.3)`; for
confidence in [0,1] it lies in [0.3, 1], is 0.3 at confidence 0, and is
1 for any confidence at least 0.7. -/
theorem box_opacity_bounds (colors : String → Option String)
    (g : Geometry) (d : Record) (r : RectPrim)
    (h0 : 0 ≤ d.confidence) (_h1 : d.confidence ≤ 1) :
    (setRectAttrs colors g d r).opacity = min 1 (d.confidence + 3/10) ∧
      3/10 ≤ (setRectAttrs colors g d r).opacity ∧
      (setRectAttrs colors g d r).opacity ≤ 1 ∧
      (d.confidence = 0 → (setRectAttrs colors g d r).opacity = 3/10) ∧
      (7/10 ≤ d.confidence → (setRectAttrs colors g d r).opacity = 1) := by
  have hop : (setRectAttrs colors g d r).opacity
      = min 1 (d.confidence + 3/10) := rfl
  refine ⟨hop, ?_, ?_, ?_, ?_⟩
  · rw [hop]
    exact le_min (by norm_num) (by linarith)
  · rw [hop]; exact min_le_left _ _
  · intro hc
    rw [hop, hc]
    norm_num
  · intro hc
    rw [hop]
    exact min_eq_left (by linarith)

/-- Witness for `box_opacity_bounds` at confidence 0.9: the drawn
opacity is exactly 1, inside [0.3, 1]. -/
theorem box_opacity_bounds_witness :
    (0 : ℚ) ≤ 9/10 ∧ (9/10 : ℚ) ≤ 1 ∧
      (setRectAttrs (fun _ => none) ⟨1920, 1080, 800, 600⟩
        ⟨3, 1, "car", 9/10, []⟩
        ⟨0, 1, 0, 0, 0, 0, none, 1⟩).opacity = 1 := by
  refine ⟨by norm_num, by norm_num, ?_⟩
  exact (box_opacity_bounds (fun _ => none) ⟨1920, 1080, 800, 600⟩
    ⟨3, 1, "car", 9/10, []⟩ ⟨0, 1, 0, 0, 0, 0, none, 1⟩
    (by norm_num) (by norm_num)).2.2.2.2 (by norm_num)

/-! ### Theorems about loading and the redraw guards -/

/-- C4: `loadBoundingBoxData` is a total function of the fetch/parse
outcome (no exception escapes); on success it replaces
`boundingBoxData` wholesale with the parsed array and resets
`currentFrame` to 0; on failure it sets `boundingBoxData` to the empty
array, leaving no stale data behind. -/
theorem load_replace_or_clear (data : List Record) (e : String)
    (s : BBState) :
    loadBoundingBoxData (Except.ok data) s
        = { s with boundingBoxData := data, currentFrame := 0 } ∧
      loadBoundingBoxData (Except.error e) s
        = { s with boundingBoxData := [] } :=
  ⟨rfl, rfl⟩

/-- C7: with no overlay surface, or with empty detection records,
`updateBoundingBoxes` returns the state unchanged and raises no
error. -/
theorem redraw_guard_noop (colors : String → Option String)
    (geom : Option Geometry) (f : Int) (s : BBState)
    (h : s.svg = none ∨ s.boundingBoxData = []) :
    updateBoundingBoxes colors geom f s = Except.ok s := by
  rcases h with h | h
  · simp [updateBoundingBoxes, h]
  · cases hs : s.svg with
    | none => simp [updateBoundingBoxes, hs]
    | some surf => simp [updateBoundingBoxes, hs, h]

/-- With a live attached surface, non-empty data, a present video
element and non-zero geometry, `updateBoundingBoxes` takes the redraw
path. -/
theorem updateBB_ok (colors : String → Option String) (g : Geometry)
    (f : Int) (s : BBState) (surf : Surface) (hsvg : s.svg = some surf)
    (hdet : surf.detached = false) (hne : s.boundingBoxData ≠ [])
    (hvw : g.videoWidth ≠ 0) (hvh : g.videoHeight ≠ 0)
    (hrw : g.rectWidth ≠ 0) (hrh : g.rectHeight ≠ 0) :
    updateBoundingBoxes colors (some g) f s
      = Except.ok (applyRedraw colors g f surf { s with currentFrame := f }) := by
  have hne2 : s.boundingBoxData.isEmpty = false := by
    simpa [List.isEmpty_iff] using hne
  simp [updateBoundingBoxes, hsvg, hne2, hdet, hvw, hvh, hrw, hrh]

theorem applyRedraw_svg (colors : String → Option String) (g : Geometry)
    (f : Int) (surf : Surface) (s : BBState) :
    (applyRedraw colors g f surf s).svg = some
      { rects := updateRects colors g (frameFilter s.boundingBoxData f) surf.rects ++
          enterRects colors g s.nextNode
            ((frameFilter s.boundingBoxData f).filter
              (fun d => decide (d.id ∉ rectKeys surf.rects))),
        labels := updateLabels colors g (frameFilter s.boundingBoxData f) surf.labels ++
          enterLabels colors g
            (s.nextNode + ((frameFilter s.boundingBoxData f).filter
              (fun d => decide (d.id ∉ rectKeys surf.rects))).length)
            ((frameFilter s.boundingBoxData f).filter
              (fun d => decide (d.id ∉ labelKeys surf.labels))),
        detached := surf.detached } := rfl

/-- C2: after a redraw with a live surface, non-empty records and valid
geometry, the box-layer primitives are keyed by record id: every
filtered record has a box and a label, every box and label carries the
id of some filtered record (ids no longer present are removed), and a
primitive whose id survives is updated in place, keeping its DOM node
(same node stamp), rather than being destroyed and recreated. -/
theorem redraw_keyed_by_id (colors : String → Option String)
    (g : Geometry) (f : Int) (s : BBState) (surf : Surface)
    (hsvg : s.svg = some surf) (hdet : surf.detached = false)
    (hne : s.boundingBoxData ≠ []) (hvw : g.videoWidth ≠ 0)
    (hvh : g.videoHeight ≠ 0) (hrw : g.rectWidth ≠ 0)
    (hrh : g.rectHeight ≠ 0) :
    ∃ s2 surf2, updateBoundingBoxes colors (some g) f s = Except.ok s2 ∧
      s2.svg = some surf2 ∧
      (∀ d ∈ frameFilter s.boundingBoxData f,
        (∃ r ∈ surf2.rects, r.key = d.id) ∧
          (∃ l ∈ surf2.labels, l.key = d.id)) ∧
      (∀ r ∈ surf2.rects, r.key ∈ keysOf (frameFilter s.boundingBoxData f)) ∧
      (∀ l ∈ surf2.labels, l.key ∈ keysOf (frameFilter s.boundingBoxData f)) ∧
      (∀ r0 ∈ surf.rects, r0.key ∈ keysOf (frameFilter s.boundingBoxData f) →
        ∃ r ∈ surf2.rects, r.nodeId = r0.nodeId ∧ r.key = r0.key) ∧
      (∀ l0 ∈ surf.labels, l0.key ∈ keysOf (frameFilter s.boundingBoxData f) →
        ∃ l ∈ surf2.labels, l.nodeId = l0.nodeId ∧ l.key = l0.key) := by
  refine ⟨applyRedraw colors g f surf { s with currentFrame := f }, _,
    updateBB_ok colors g f s surf hsvg hdet hne hvw hvh hrw hrh,
    applyRedraw_svg colors g f surf { s with currentFrame := f }, ?_, ?_, ?_, ?_, ?_⟩
  · intro d hd
    exact ⟨joinRects_complete colors g _ _ surf.rects hd,
      joinLabels_complete colors g _ _ surf.labels hd⟩
  · intro r hr
    exact joinRects_sound colors g _ _ surf.rects hr
  · intro l hl
    exact joinLabels_sound colors g _ _ surf.labels hl
  · intro r0 hr0 hk
    obtain ⟨r2, hr2, hnode, hkey⟩ :=
      @updateRects_reuse colors g _ _ _ hr0 hk
    exact ⟨r2, List.mem_append_left _ hr2, hnode, hkey⟩
  · intro l0 hl0 hk
    obtain ⟨l2, hl2, hnode, hkey⟩ :=
      @updateLabels_reuse colors g _ _ _ hl0 hk
    exact ⟨l2, List.mem_append_left _ hl2, hnode, hkey⟩

/-- Witness for `redraw_keyed_by_id` on the one-record fixture at
frame 3. -/
theorem redraw_keyed_by_id_witness :
    ∃ s2 surf2,
      updateBoundingBoxes exColors (some exGeom) 3 exState = Except.ok s2 ∧
      s2.svg = some surf2 ∧
      (∀ d ∈ frameFilter exState.boundingBoxData 3,
        (∃ r ∈ surf2.rects, r.key = d.id) ∧
          (∃ l ∈ surf2.labels, l.key = d.id)) ∧
      (∀ r ∈ surf2.rects, r.key ∈ keysOf (frameFilter exState.boundingBoxData 3)) ∧
      (∀ l ∈ surf2.labels, l.key ∈ keysOf (frameFilter exState.boundingBoxData 3)) ∧
      (∀ r0 ∈ exSurface.rects,
        r0.key ∈ keysOf (frameFilter exState.boundingBoxData 3) →
        ∃ r ∈ surf2.rects, r.nodeId = r0.nodeId ∧ r.key = r0.key) ∧
      (∀ l0 ∈ exSurface.labels,
        l0.key ∈ keysOf (frameFilter exState.boundingBoxData 3) →
        ∃ l ∈ surf2.labels, l.nodeId = l0.nodeId ∧ l.key = l0.key) :=
  redraw_keyed_by_id exColors exGeom 3 exState exSurface rfl rfl
    (by decide) (by decide) (by decide) (by decide) (by decide)

/-- C9: redraw is idempotent. With unchanged records and geometry (and
ids unique within the frame, as the data model requires), the second of
two consecutive `Redraw(f)` calls returns exactly the state the first
produced: same primitives, same counts, same attributes, same node
stamps, no duplicates accumulated. -/
theorem redraw_idempotent (colors : String → Option String)
    (g : Geometry) (f : Int) (s : BBState) (surf : Surface)
    (hsvg : s.svg = some surf) (hdet : surf.detached = false)
    (hne : s.boundingBoxData ≠ []) (hvw : g.videoWidth ≠ 0)
    (hvh : g.videoHeight ≠ 0) (hrw : g.rectWidth ≠ 0)
    (hrh : g.rectHeight ≠ 0)
    (hnd : (keysOf (frameFilter s.boundingBoxData f)).Nodup) :
    ∃ s2, updateBoundingBoxes colors (some g) f s = Except.ok s2 ∧
      updateBoundingBoxes colors (some g) f s2 = Except.ok s2 := by
  refine ⟨applyRedraw colors g f surf s,
    updateBB_ok colors g f s surf hsvg hdet hne hvw hvh hrw hrh, ?_⟩
  have h2 : updateBoundingBoxes colors (some g) f
      (applyRedraw colors g f surf s)
      = Except.ok (applyRedraw colors g f
          (redrawSurface colors g (frameFilter s.boundingBoxData f)
            s.nextNode surf)
          (applyRedraw colors g f surf s)) :=
    updateBB_ok colors g f (applyRedraw colors g f surf s)
      (redrawSurface colors g (frameFilter s.boundingBoxData f)
        s.nextNode surf)
      rfl hdet hne hvw hvh hrw hrh
  rw [h2, applyRedraw_idem colors g f surf s hnd]

/-- Witness for `redraw_idempotent` on the one-record fixture. -/
theorem redraw_idempotent_witness :
    ∃ s2, updateBoundingBoxes exColors (some exGeom) 3 exState
        = Except.ok s2 ∧
      updateBoundingBoxes exColors (some exGeom) 3 s2 = Except.ok s2 :=
  redraw_idempotent exColors exGeom 3 exState exSurface rfl rfl
    (by decide) (by decide) (by decide) (by decide) (by decide) (by decide)

/-- A non-finite value is clamped to 0. -/
theorem finClamp_of_not_finite {v : JSNum} (h : v.isFinite = false) :
    finClamp v = 0 := by
  cases v <;> simp_all [JSNum.isFinite, finClamp]

theorem finPosClamp_of_not_finite {v : JSNum} (h : v.isFinite = false) :
    finPosClamp v = 0 := by
  cases v <;> simp_all [JSNum.isFinite, finPosClamp]

theorem finPosClamp_nonneg (v : JSNum) : 0 ≤ finPosClamp v := by
  cases v with
  | num q =>
    by_cases hq : 0 < q
    · simp [finPosClamp, hq, hq.le]
    · simp [finPosClamp, hq]
  | nan => simp [finPosClamp]
  | inf => simp [finPosClamp]
  | ninf => simp [finPosClamp]

/-- C6: malformed bboxes are tolerated per-field. Whatever the record
contains, redraw neither rejects the record nor throws: the call still
succeeds, the record still gets its box and label primitives, each
drawn attribute whose raw computation is non-finite is clamped to 0,
and drawn width and height are never negative. -/
theorem malformed_bbox_tolerated (colors : String → Option String)
    (g : Geometry) (f : Int) (s : BBState) (surf : Surface) (d : Record)
    (hsvg : s.svg = some surf) (hdet : surf.detached = false)
    (hne : s.boundingBoxData ≠ []) (hvw : g.videoWidth ≠ 0)
    (hvh : g.videoHeight ≠ 0) (hrw : g.rectWidth ≠ 0)
    (hrh : g.rectHeight ≠ 0) :
    ((rawX g d).isFinite = false → drawnX g d = 0) ∧
      ((rawY g d).isFinite = false → drawnY g d = 0) ∧
      ((rawW g d).isFinite = false → drawnW g d = 0) ∧
      ((rawH g d).isFinite = false → drawnH g d = 0) ∧
      0 ≤ drawnW g d ∧ 0 ≤ drawnH g d ∧
      ∃ s2 surf2, updateBoundingBoxes colors (some g) f s = Except.ok s2 ∧
        s2.svg = some surf2 ∧
        (d ∈ frameFilter s.boundingBoxData f →
          (∃ r ∈ surf2.rects, r.key = d.id) ∧
            (∃ l ∈ surf2.labels, l.key = d.id)) := by
  refine ⟨fun h => finClamp_of_not_finite h, fun h => finClamp_of_not_finite h,
    fun h => finPosClamp_of_not_finite h, fun h => finPosClamp_of_not_finite h,
    finPosClamp_nonneg _, finPosClamp_nonneg _,
    applyRedraw colors g f surf { s with currentFrame := f }, _,
    updateBB_ok colors g f s surf hsvg hdet hne hvw hvh hrw hrh,
    applyRedraw_svg colors g f surf { s with currentFrame := f }, ?_⟩
  intro hd
  exact ⟨joinRects_complete colors g _ _ surf.rects hd,
    joinLabels_complete colors g _ _ surf.labels hd⟩

/-- Witness for `malformed_bbox_tolerated`: a record with no bbox at
all (every component reads NaN) still draws, with all attributes 0. -/
theorem malformed_bbox_tolerated_witness :
    ((rawX exGeom exNanRecord).isFinite = false →
        drawnX exGeom exNanRecord = 0) ∧
      ((rawY exGeom exNanRecord).isFinite = false →
        drawnY exGeom exNanRecord = 0) ∧
      ((rawW exGeom exNanRecord).isFinite = false →
        drawnW exGeom exNanRecord = 0) ∧
      ((rawH exGeom exNanRecord).isFinite = false →
        drawnH exGeom exNanRecord = 0) ∧
      0 ≤ drawnW exGeom exNanRecord ∧ 0 ≤ drawnH exGeom exNanRecord ∧
      ∃ s2 surf2,
        updateBoundingBoxes exColors (some exGeom) 3 exStateNan
          = Except.ok s2 ∧
        s2.svg = some surf2 ∧
        (exNanRecord ∈ frameFilter exStateNan.boundingBoxData 3 →
          (∃ r ∈ surf2.rects, r.key = exNanRecord.id) ∧
            (∃ l ∈ surf2.labels, l.key = exNanRecord.id)) :=
  malformed_bbox_tolerated exColors exGeom 3 exStateNan exSurface
    exNanRecord rfl rfl (by decide) (by decide) (by decide) (by decide)
    (by decide)

/-- C10: the two abort families of `updateBoundingBoxes` differ on
`currentFrame`. Aborting on the missing-surface or empty-data guard
leaves the state untouched, while aborting later on a zero dimension
happens after `currentFrame` was already set to the requested frame;
`handleResize` always redraws the stored `currentFrame`, hence the
requested frame in the latter case and the previous frame in the
former. -/
theorem abort_paths_currentFrame (colors : String → Option String)
    (geom : Option Geometry) (f : Int) (s : BBState) (surf : Surface) :
    ((s.svg = none ∨ s.boundingBoxData = []) →
      updateBoundingBoxes colors geom f s = Except.ok s) ∧
    (s.svg = some surf → surf.detached = false → s.boundingBoxData ≠ [] →
      geom = none →
      updateBoundingBoxes colors geom f s
        = Except.ok { s with currentFrame := f }) ∧
    (∀ g, s.svg = some surf → surf.detached = false →
      s.boundingBoxData ≠ [] → geom = some g →
      (g.videoWidth = 0 ∨ g.videoHeight = 0 ∨ g.rectWidth = 0 ∨
        g.rectHeight = 0) →
      updateBoundingBoxes colors geom f s
        = Except.ok { s with currentFrame := f }) ∧
    (s.svg = some surf →
      handleResize colors geom s
        = updateBoundingBoxes colors geom s.currentFrame s) := by
  refine ⟨?_, ?_, ?_, ?_⟩
  · intro h
    rcases h with h | h
    · simp [updateBoundingBoxes, h]
    · cases hs : s.svg with
      | none => simp [updateBoundingBoxes, hs]
      | some surf0 => simp [updateBoundingBoxes, hs, h]
  · intro hsvg hdet hne hgeom
    have hne2 : s.boundingBoxData.isEmpty = false := by
      simpa [List.isEmpty_iff] using hne
    simp [updateBoundingBoxes, hsvg, hdet, hne2, hgeom]
  · intro g hsvg hdet hne hgeom hzero
    have hne2 : s.boundingBoxData.isEmpty = false := by
      simpa [List.isEmpty_iff] using hne
    simp only [updateBoundingBoxes, hsvg, hne2, hdet, hgeom,
      Bool.false_eq_true, if_false]
    rw [if_pos hzero]
  · intro hsvg
    simp [handleResize, hsvg]

/-- Witness for `abort_paths_currentFrame`: a zero native width aborts
the redraw but `currentFrame` has become 3; an empty-data abort leaves
the state untouched. -/
theorem abort_paths_currentFrame_witness :
    updateBoundingBoxes exColors (some exZeroGeom) 3 exState
        = Except.ok { exState with currentFrame := 3 } ∧
      handleResize exColors (some exZeroGeom) exState
        = updateBoundingBoxes exColors (some exZeroGeom)
            exState.currentFrame exState := by
  have h := abort_paths_currentFrame exColors (some exZeroGeom) 3 exState
    exSurface
  exact ⟨h.2.2.1 exZeroGeom rfl rfl (by decide) rfl (Or.inl (by decide)),
    h.2.2.2 rfl⟩

/-- The failed-initialization state: the old overlay DOM node is
removed but the module `svg` variable keeps the stale selection. -/
theorem initializeBoundingBoxes_fail_svg (env : InitEnv) (s : BBState)
    (h : env.hasVideo = false) :
    (initializeBoundingBoxes env s).svg
      = s.svg.map (fun surf => { surf with detached := true }) := by
  simp [initializeBoundingBoxes, h]

/-- Counterexample to C5 as literally stated: after a successful
initialization, a failed re-initialization (container without a video
element) leaves the stale overlay reference in place, and the next
redraw with non-empty records throws a TypeError instead of being a
silent no-op. -/
theorem init_failure_cex :
    (initializeBoundingBoxes ⟨false⟩ exState).svg ≠ none ∧
      updateBoundingBoxes exColors (some exGeom) 3
          (initializeBoundingBoxes ⟨false⟩ exState)
        = Except.error "TypeError" := by
  constructor
  · simp [initializeBoundingBoxes, exState, exSurface]
  · rfl

/-- C5, amended: a failed `Initialize` never throws (it is a total
function) and logs. If no overlay surface existed before the failure,
none exists after and every subsequent `Redraw` is a silent no-op; but
if a surface existed, the module keeps a stale reference to the now
detached surface, and a subsequent `Redraw` with non-empty records
throws a TypeError. -/
theorem init_failure_amended (env : InitEnv) (s : BBState)
    (h : env.hasVideo = false) :
    (s.svg = none → (initializeBoundingBoxes env s).svg = none ∧
      ∀ (colors : String → Option String) (geom : Option Geometry) (f : Int),
        updateBoundingBoxes colors geom f (initializeBoundingBoxes env s)
          = Except.ok (initializeBoundingBoxes env s)) ∧
    (∀ surf, s.svg = some surf →
      (initializeBoundingBoxes env s).svg
          = some { surf with detached := true } ∧
      (s.boundingBoxData ≠ [] →
        ∀ (colors : String → Option String) (geom : Option Geometry)
          (f : Int),
          updateBoundingBoxes colors geom f (initializeBoundingBoxes env s)
            = Except.error "TypeError")) := by
  constructor
  · intro hnone
    have hsvg : (initializeBoundingBoxes env s).svg = none := by
      rw [initializeBoundingBoxes_fail_svg env s h, hnone]
      rfl
    exact ⟨hsvg, fun colors geom f => by simp [updateBoundingBoxes, hsvg]⟩
  · intro surf hsome
    have hsvg : (initializeBoundingBoxes env s).svg
        = some { surf with detached := true } := by
      rw [initializeBoundingBoxes_fail_svg env s h, hsome]
      rfl
    refine ⟨hsvg, fun hne colors geom f => ?_⟩
    have hbbd : (initializeBoundingBoxes env s).boundingBoxData
        = s.boundingBoxData := by
      simp [initializeBoundingBoxes, h]
    have hne2 : (initializeBoundingBoxes env s).boundingBoxData.isEmpty
        = false := by
      rw [hbbd]
      simpa [List.isEmpty_iff] using hne
    simp [updateBoundingBoxes, hsvg, hne2]

/-- Witness for `init_failure_amended` at the concrete
previously-initialized state. -/
theorem init_failure_amended_witness :
    (initializeBoundingBoxes ⟨false⟩ exState).svg
        = some { exSurface with detached := true } ∧
      updateBoundingBoxes exColors (some exGeom) 3
          (initializeBoundingBoxes ⟨false⟩ exState)
        = Except.error "TypeError" := by
  have h := (init_failure_amended ⟨false⟩ exState rfl).2 exSurface rfl
  exact ⟨h.1, h.2 (by decide) exColors (some exGeom) 3⟩

/-- Witness for `redraw_guard_noop`: `Redraw(5)` on a state with empty
records returns it untouched. -/
theorem redraw_guard_noop_witness :
    updateBoundingBoxes (fun _ => none) (some ⟨1920, 1080, 800, 600⟩) 5
        ⟨[], some ⟨[], [], false⟩, 0, 0⟩
      = Except.ok ⟨[], some ⟨[], [], false⟩, 0, 0⟩ :=
  redraw_guard_noop (fun _ => none) (some ⟨1920, 1080, 800, 600⟩) 5
    ⟨[], some ⟨[], [], false⟩, 0, 0⟩ (Or.inr rfl)
